import Mathlib

/-!
# Verification of the ton-indexer event classifier

Shallow embedding of `event_classifier.py` (work-distribution pipeline,
`process_trace`, the worker batch transaction, the claimer's selection
query and batch splitting) and of the Ston.fi V1 swap matcher from
`indexer/events/blocks/swaps.py`.

External collaborators that are not part of the two source files
(the binary codec, the metadata/interface cache, `serialize_blocks`,
`create_unknown_action`, `try_classify_unknown_trace`,
`process_event_async_with_postprocessing`) are modelled as explicit
environment parameters, following the spec's interface descriptions.
-/

namespace Classifier

/-- Exceptions.  Python exceptions are modelled as values of this type;
a raised exception is an `Except.error`. -/
inductive Err where
  | indexError
  | assertionError
  | duplicateAction
  | duplicateActionAccount
  | sqlError
  | stopIteration
  | attributeError
  | decodeError
  | externalError
deriving DecidableEq, Repr

/-- One executed account step of a trace.  Only the fields read by
`event_classifier.py` are modelled; `descr` is the description kind
column (`trace.transactions[0].descr`). -/
structure Transaction where
  descr : String
deriving DecidableEq, Repr

/-- A trace row as loaded by the worker's bulk fetch: trace id, terminal
masterchain seqno (`mc_seqno_end`), node count (`nodes_`) and the loaded
transactions. -/
structure Trace where
  traceId : String
  mcSeqnoEnd : Int
  nodes : Int
  transactions : List Transaction
deriving DecidableEq, Repr

/-- A row of the `action_accounts` table (used for the duplicate check
keys `account + '_' + action_id + '_' + trace_id`). -/
structure ActionAccount where
  account : String
  actionId : String
  traceId : String
deriving DecidableEq, Repr

/-- A row of the `actions` table.  `actionAccounts` models the result of
`Action.get_action_accounts()`.  Modelled from the spec: the method
itself lives in `indexer.core.database` (not under `src/`); per §3 it
returns the set of participant Action Accounts of the action. -/
structure Action where
  actionId : String
  traceId : String
  actionAccounts : List ActionAccount
deriving DecidableEq, Repr

/-- The 4-tuple returned by `process_trace`:
`(trace.trace_id, state, actions, exception)`. -/
structure TraceResult where
  traceId : String
  state : String
  actions : List Action
  exc : Option Err
deriving DecidableEq, Repr

/-- Tags for the external calls `process_trace` makes, in order; the
embedding returns the call log next to the result so that claims about
"exactly one fallback attempt" or "no rule is invoked" can be stated. -/
inductive ExtCall where
  | processEvent
  | serializeBlocks
  | tryClassifyUnknown
  | createUnknown
deriving DecidableEq, BEq, Repr

/-- Environment of `process_trace`: the four external functions it calls.
`β` is the (opaque) type of the block-tree result of
`process_event_async_with_postprocessing`.  Modelled from the spec:
these functions live in modules that are not under `src/`; each is a
fallible function, `Except.error` standing for a raised exception.
`serializeBlocks` takes the block result, the trace id and the trace and
returns `(actions, state)` as in
`actions, state = serialize_blocks(result, trace.trace_id, trace)`. -/
structure ProcEnv (β : Type) where
  processEvent : Trace → Except Err β
  serializeBlocks : β → String → Trace → Except Err (List Action × String)
  tryClassifyUnknown : Trace → Except Err (List Action)
  createUnknown : Trace → Except Err Action

/-- The tick-tock short-circuit test of `process_trace`:
`len(trace.transactions) == 1 and trace.transactions[0].descr == 'tick_tock'`. -/
def tickTock (trace : Trace) : Bool :=
  match trace.transactions with
  | [tx] => tx.descr == "tick_tock"
  | _ => false

/-- The `try:` body of `process_trace` (everything between the tick-tock
short-circuit and the `except`), together with the log of external calls
made.  An `Except.error` is an exception escaping the `try` body. -/
def processTraceTry {β : Type} (env : ProcEnv β) (trace : Trace) :
    Except Err TraceResult × List ExtCall :=
  match env.processEvent trace with
  | .error e => (.error e, [.processEvent])
  | .ok result =>
    match env.serializeBlocks result trace.traceId trace with
    | .error e => (.error e, [.processEvent, .serializeBlocks])
    | .ok (actions, state) =>
      if actions.length == 0 && trace.transactions.length > 0 then
        match env.tryClassifyUnknown trace with
        | .error e =>
            (.error e, [.processEvent, .serializeBlocks, .tryClassifyUnknown])
        | .ok actions2 =>
            (.ok ⟨trace.traceId, state, actions2, none⟩,
             [.processEvent, .serializeBlocks, .tryClassifyUnknown])
      else
        (.ok ⟨trace.traceId, state, actions, none⟩,
         [.processEvent, .serializeBlocks])

/-- Shallow embedding of `process_trace` (`event_classifier.py:486-501`).
A total function: every exception of the `try` body is caught and turned
into a `'failed'` result; if `create_unknown_action` itself raises, the
inner bare `except` returns the empty action list. -/
def processTrace {β : Type} (env : ProcEnv β) (trace : Trace) :
    TraceResult × List ExtCall :=
  if tickTock trace then (⟨trace.traceId, "ok", [], none⟩, [])
  else
    match processTraceTry env trace with
    | (.ok r, calls) => (r, calls)
    | (.error e, calls) =>
      match env.createUnknown trace with
      | .ok a => (⟨trace.traceId, "failed", [a], some e⟩, calls ++ [.createUnknown])
      | .error _ => (⟨trace.traceId, "failed", [], some e⟩, calls ++ [.createUnknown])

/-- The ORM object built for a `_classifier_tasks` row
(`ClassifierTask(id=.., mc_seqno=.., trace_id=.., pending=..)`). -/
structure ClassifierTask where
  id : Int
  mcSeqno : Option Int
  traceId : Option String
  pending : Option Bool
deriving DecidableEq, Repr

/-- A row of the durable `_classifier_tasks` table.  Besides the ORM
columns it has the lease columns `claimed_at` and `start_after` used by
the claimer's raw SQL (timestamps modelled as seconds). -/
structure TaskRow where
  id : Int
  mcSeqno : Option Int
  traceId : Option String
  pending : Option Bool
  claimedAt : Option Int
  startAfter : Option Int
deriving DecidableEq, Repr

/-- A row of the `_classifier_failed_traces` quarantine table. -/
structure FailedTraceRow where
  traceId : String
  broken : Bool
  error : Option Err
deriving DecidableEq, Repr

/-- The durable store visible to one worker transaction: the results
tables (`actions`, `action_accounts`), the quarantine, the backlog
(`_classifier_tasks`), the `blocks_classified` marker table and the
read-only `traces` table. -/
structure Db where
  actions : List Action
  actionAccounts : List ActionAccount
  failedTraces : List FailedTraceRow
  tasks : List TaskRow
  blocksClassified : List Int
  traces : List Trace
deriving DecidableEq, Repr

/-- The key `concat_key = action.action_id + '_' + action.trace_id`. -/
def actionKey (a : Action) : String :=
  a.actionId ++ "_" ++ a.traceId

/-- The key `account_concat_key = action_account.account + '_' +
action_account.action_id + '_' + action.trace_id` (note: the trace id of
the owning action, exactly as in the source). -/
def accountKey (a : Action) (aa : ActionAccount) : String :=
  aa.account ++ "_" ++ aa.actionId ++ "_" ++ a.traceId

/-- Insert into `actions` under the `ON CONFLICT DO NOTHING` policy
installed by `add_on_conflict_ignore` (natural key `(action_id, trace_id)`
per §6 of the spec). -/
def insertActionIgnore (xs : List Action) (a : Action) : List Action :=
  if (a.actionId, a.traceId) ∈ xs.map (fun b => (b.actionId, b.traceId)) then xs
  else xs ++ [a]

/-- Insert into `action_accounts` under `ON CONFLICT DO NOTHING`
(natural key `(account, action_id, trace_id)`). -/
def insertAccountIgnore (xs : List ActionAccount) (aa : ActionAccount) :
    List ActionAccount :=
  if (aa.account, aa.actionId, aa.traceId)
      ∈ xs.map (fun b => (b.account, b.actionId, b.traceId)) then xs
  else xs ++ [aa]

/-- Insert into `_classifier_failed_traces` with
`on conflict do nothing` on the trace id. -/
def insertFailedIgnore (rows : List FailedTraceRow) (row : FailedTraceRow) :
    List FailedTraceRow :=
  if row.traceId ∈ rows.map (·.traceId) then rows else rows ++ [row]

/-- The inner loop over `action.get_action_accounts()`: check each
account key against the `inserted_action_accounts` set, raising
`Exception("Duplicate action account: ...")` on a hit, else adding the
key. -/
def checkAccountsLoop (a : Action) (ins : List String) :
    Except Err (List String) :=
  a.actionAccounts.foldlM
    (fun ins aa =>
      let k := accountKey a aa
      if k ∈ ins then Except.error Err.duplicateActionAccount
      else Except.ok (k :: ins))
    ins

/-- Body of `for action in actions:` — check the action key against
`inserted_actions` (raising `Exception("Duplicate action: ...")` on a
hit), run the account-key loop, then
`session.add_all(action.get_action_accounts())`.  The state is
`(inserted_actions, inserted_action_accounts, staged action_accounts)`. -/
def stageOne (acc : List String × List String × List ActionAccount)
    (a : Action) :
    Except Err (List String × List String × List ActionAccount) := do
  let (insA, insAA, accRows) := acc
  let k := actionKey a
  if k ∈ insA then Except.error Err.duplicateAction
  else
    let insAA' ← checkAccountsLoop a insAA
    Except.ok (k :: insA, insAA',
      a.actionAccounts.foldl insertAccountIgnore accRows)

/-- State threaded through the staging loop
`for trace_id, state, actions, exc in results:`. -/
structure StageState where
  sdb : Db
  insA : List String
  insAA : List String
  okT : List String
  failedT : List String
  brokenT : List String
deriving Repr

/-- One iteration of the staging loop: for an `'ok'`/`'broken'` result,
`session.add_all(actions)`, run the duplicate checks, and record the
trace as ok or stage its `broken=true` quarantine row; otherwise stage
the `broken=false` quarantine row with the error and record the trace
as failed. -/
def stageResult (st : StageState) (r : TraceResult) : Except Err StageState :=
  if r.state == "ok" || r.state == "broken" then do
    let sdb0 : Db :=
      { st.sdb with actions := r.actions.foldl insertActionIgnore st.sdb.actions }
    let (insA', insAA', accRows) ←
      r.actions.foldlM stageOne (st.insA, st.insAA, sdb0.actionAccounts)
    let sdb1 : Db := { sdb0 with actionAccounts := accRows }
    if r.state == "ok" then
      Except.ok { st with sdb := sdb1, insA := insA', insAA := insAA',
                          okT := st.okT ++ [r.traceId] }
    else
      Except.ok { st with
        sdb := { sdb1 with
          failedTraces := insertFailedIgnore sdb1.failedTraces
            ⟨r.traceId, true, none⟩ },
        insA := insA', insAA := insAA',
        brokenT := st.brokenT ++ [r.traceId] }
  else
    Except.ok { st with
      sdb := { st.sdb with
        failedTraces := insertFailedIgnore st.sdb.failedTraces
          ⟨r.traceId, false, r.exc⟩ },
      failedT := st.failedT ++ [r.traceId] }

/-- Accumulator of the per-task loop: the lists `trace_ids`,
`mc_seqnos`, `trace_ids_to_cleanup`. -/
structure TaskScan where
  traceIds : List String
  mcSeqnos : List (Option Int)
  cleanup : List String
deriving Repr

/-- The batch-consistency assertions
(`assert task.trace_id is not None` for a trace batch,
`assert task.trace_id is None` for a seqno batch). -/
def scanAssert (isTraceBatch : Bool) (task : ClassifierTask) :
    Except Err Unit :=
  if isTraceBatch then
    if task.traceId.isSome then Except.ok () else Except.error Err.assertionError
  else
    if task.traceId.isNone then Except.ok () else Except.error Err.assertionError

/-- One iteration of `for task in tasks:` — the batch-consistency
assertion, accumulation of `mc_seqnos` / `trace_ids`, the
`blocks_classified` existence check and the collection of
`trace_ids_to_cleanup`. -/
def scanTask (db : Db) (isTraceBatch : Bool) (acc : TaskScan)
    (task : ClassifierTask) : Except Err TaskScan := do
  let _ ← scanAssert isTraceBatch task
  let mcSeqnos := acc.mcSeqnos ++ [task.mcSeqno]
  let traceIds := acc.traceIds ++
    (match task.traceId with | some t => [t] | none => [])
  let exib : Bool :=
    match task.traceId, task.mcSeqno with
    | some _, _ => true
    | none, some m => db.blocksClassified.contains m
    | none, none => false
  let cleanup := acc.cleanup ++
    (if exib then
       match task.traceId with
       | some tid => [tid]
       | none =>
         match task.mcSeqno with
         | some m =>
             (db.traces.filter (fun tr => tr.mcSeqnoEnd == m)).map (·.traceId)
         | none => []
     else [])
  Except.ok ⟨traceIds, mcSeqnos, cleanup⟩

/-- The batch's trace filter: `Trace.trace_id.in_(trace_ids)` for a
trace batch, else `Trace.mc_seqno_end.in_(mc_seqnos)` and
`Trace.nodes_ <= big_traces_threshold` (SQL `IN` never matches a
`NULL` element). -/
def loadTraces (db : Db) (isTraceBatch : Bool) (traceIds : List String)
    (mcSeqnos : List (Option Int)) (threshold : Int) : List Trace :=
  if isTraceBatch then
    db.traces.filter (fun tr => tr.traceId ∈ traceIds)
  else
    db.traces.filter (fun tr =>
      decide (some tr.mcSeqnoEnd ∈ mcSeqnos) && decide (tr.nodes ≤ threshold))

/-- Environment of a worker: the `process_trace` environment, the
outcome of the interface-gathering step
(`gather_interfaces` / `put_interfaces` — external metadata cache and
Redis, modelled from the spec as a single fallible step) and the
`big_traces_threshold` constructor argument. -/
structure WorkerEnv (β : Type) where
  proc : ProcEnv β
  gather : Except Err Unit
  bigTracesThreshold : Int

/-- The `insert into blocks_classified(mc_seqno) values (..) on conflict
do nothing` statement of the seqno-batch epilogue; a task without a
seqno renders invalid SQL (`values (None)`), an exception. -/
def markBlockClassified (d : Db) (t : ClassifierTask) : Except Err Db :=
  match t.mcSeqno with
  | none => Except.error Err.sqlError
  | some m =>
    Except.ok (if d.blocksClassified.contains m then d
      else { d with blocksClassified := d.blocksClassified ++ [m] })

/-- The post-cleanup store: `delete(Action).where(...)` and
`delete(ActionAccount).where(...)` over the collected
`trace_ids_to_cleanup` (executed only when the list is non-empty). -/
def cleanupDb (db : Db) (cleanup : List String) : Db :=
  if cleanup.length > 0 then
    { db with
      actions := db.actions.filter (fun a => a.traceId ∉ cleanup),
      actionAccounts :=
        db.actionAccounts.filter (fun aa => aa.traceId ∉ cleanup) }
  else db

/-- The `try:` body of `process_trace_batch_async`, acting on a
session-local copy of the store.  An `Except.error` models an exception
reaching the `except` handler; `Except.ok` models reaching
`session.commit()` and carries the committed store and the
`(ok, processed, failed, broken)` tuple.  (`tasks[0]` on an empty batch
is an `IndexError`.) -/
def batchBody {β : Type} (env : WorkerEnv β) (db : Db)
    (tasks : List ClassifierTask) :
    Except Err (Db × (Bool × Nat × Nat × Nat)) :=
  match tasks with
  | [] => Except.error Err.indexError
  | t0 :: _ =>
    let isTraceBatch := t0.traceId.isSome
    match tasks.foldlM (scanTask db isTraceBatch) ⟨[], [], []⟩ with
    | .error e => Except.error e
    | .ok scan =>
      let db1 := cleanupDb db scan.cleanup
      let traces := loadTraces db1 isTraceBatch scan.traceIds scan.mcSeqnos
        env.bigTracesThreshold
      let processed := traces.length
      match env.gather with
      | .error e => Except.error e
      | .ok _ =>
        let results := traces.map (fun tr => (processTrace env.proc tr).1)
        match results.foldlM stageResult ⟨db1, [], [], [], [], []⟩ with
        | .error e => Except.error e
        | .ok st =>
          match (if isTraceBatch then Except.ok st.sdb
                 else tasks.foldlM markBlockClassified st.sdb) with
          | .error e => Except.error e
          | .ok db2 =>
            let taskIds := tasks.map (·.id)
            Except.ok ({ db2 with
                tasks := db2.tasks.filter (fun r => r.id ∉ taskIds) },
              (true, processed, st.failedT.length, st.brokenT.length))

/-- Shallow embedding of
`EventClassifierWorker.process_trace_batch_async`
(`event_classifier.py:216-359`): run the transaction body; on success
the commit makes the session state durable, on any exception
`session.rollback()` leaves the store unchanged and the worker returns
`(False, 0, 0, 0)`. -/
def process_trace_batch_async {β : Type} (env : WorkerEnv β) (db : Db)
    (tasks : List ClassifierTask) : Db × (Bool × Nat × Nat × Nat) :=
  match batchBody env db tasks with
  | .ok (db', stats) => (db', stats)
  | .error _ => (db, (false, 0, 0, 0))

/-- Lease test of the claimer's selection:
`claimed_at IS NULL OR claimed_at < NOW() - INTERVAL '5 minutes'`
(timestamps in seconds, so the lease timeout is 300). -/
def leaseFree (now : Int) (r : TaskRow) : Bool :=
  match r.claimedAt with
  | none => true
  | some t => decide (t < now - 300)

/-- Deferred-retry test: `start_after IS NULL OR start_after <= NOW()`. -/
def startOk (now : Int) (r : TaskRow) : Bool :=
  match r.startAfter with
  | none => true
  | some t => decide (t ≤ now)

/-- The `WHERE` clause of the claimer's selection. -/
def taskEligible (now : Int) (r : TaskRow) : Bool :=
  leaseFree now r && startOk now r

/-- The `ORDER BY mc_seqno DESC NULLS FIRST` order as a boolean
"a comes no later than b" relation: a `NULL` seqno sorts before
everything, larger seqnos before smaller ones. -/
def seqnoDescNullsFirst (a b : TaskRow) : Bool :=
  match a.mcSeqno, b.mcSeqno with
  | none, _ => true
  | some _, none => false
  | some x, some y => decide (y ≤ x)

/-- The row set selected by the claimer's CTE: eligible rows, ordered by
`mc_seqno DESC NULLS FIRST`, limited to `batch_size`. -/
def selectedRows (now : Int) (batchSize : Nat) (table : List TaskRow) :
    List TaskRow :=
  ((table.filter (taskEligible now)).mergeSort seqnoDescNullsFirst).take batchSize

/-- Shallow embedding of the claimer's single atomic
`WITH A AS (SELECT ... FOR UPDATE SKIP LOCKED) UPDATE ... SET claimed_at
= NOW() ... RETURNING *` statement (`event_classifier.py:92-107`):
returns the updated table and the returned (claimed) rows.  Being one
function application, the selection and the lease update are atomic by
construction. -/
def readBatchQuery (now : Int) (batchSize : Nat) (table : List TaskRow) :
    List TaskRow × List TaskRow :=
  let sel := selectedRows now batchSize table
  let ids : List Int := sel.map (·.id)
  (table.map (fun r =>
     if r.id ∈ ids then { r with claimedAt := some now } else r),
   sel.map (fun r => { r with claimedAt := some now }))

/-- One iteration of the loop in `_split_tasks_into_batches`: a task
with a trace id is appended to the combined `trace_tasks_batch`, a
seqno task becomes its own singleton appended to
`seqno_tasks_batches`.  State: `(seqno_tasks_batches,
trace_tasks_batch)`. -/
def splitStep (acc : List (List ClassifierTask) × List ClassifierTask)
    (task : ClassifierTask) :
    List (List ClassifierTask) × List ClassifierTask :=
  if task.traceId.isSome then (acc.1, acc.2 ++ [task])
  else (acc.1 ++ [[task]], acc.2)

/-- Shallow embedding of
`UnclassifiedEventsReader._split_tasks_into_batches`
(`event_classifier.py:123-134`). -/
def splitTasksIntoBatches (tasks : List ClassifierTask) :
    List (List ClassifierTask) :=
  let (seqnoBatches, traceBatch) := tasks.foldl splitStep ([], [])
  if traceBatch.length == 0 then seqnoBatches
  else seqnoBatches ++ [traceBatch]

/-- The ORM task object built from a returned row in `read_batch`. -/
def taskOfRow (row : TaskRow) : ClassifierTask :=
  ⟨row.id, row.mcSeqno, row.traceId, row.pending⟩

/-- Shallow embedding of `UnclassifiedEventsReader.read_batch`
(`event_classifier.py:88-121`): run the claim statement, build
`ClassifierTask` objects from the returned rows, split them into
batches (the batches are then pushed to the work queue in order). -/
def read_batch (now : Int) (batchSize : Nat) (table : List TaskRow) :
    List TaskRow × List (List ClassifierTask) :=
  let (table', rows) := readBatchQuery now batchSize table
  (table', splitTasksIntoBatches (rows.map taskOfRow))

end Classifier

namespace Swaps

open Classifier (Err)

/-- An account id (addresses are opaque strings;
`to_str(False)` is the identity on this representation). -/
structure AccountId where
  addr : String
deriving DecidableEq, Repr

/-- The `Amount` wrapper from the block utils (may wrap `None`,
e.g. `Amount(ref_amt)` with `ref_amt = None`). -/
structure Amount where
  val : Option Int
deriving DecidableEq, Repr

/-- The `Asset` value from the block utils. -/
structure Asset where
  isTon : Bool
  jettonAddress : Option AccountId
deriving DecidableEq, Repr

/-- Interface info for a jetton wallet returned by the metadata cache
(`get_jetton_wallet`); only the fields read by the Ston.fi rule. -/
structure JettonWallet where
  jetton : String
  owner : String
deriving DecidableEq, Repr

/-- Fields of a decoded `StonfiSwapMessage` read by `_get_block_data`.
Modelled from the spec: the decoder class lives in
`indexer.events.blocks.messages` (not under `src/`); the external codec
is assumed correct, so a contract-call block's body carries the decoded
message. -/
structure StonfiSwapMsg where
  amount : Int
  tokenWallet : String
  fromRealUser : String
  fromUserAddress : String
deriving DecidableEq, Repr

/-- Fields of a decoded `StonfiPaymentRequest` read by
`_get_block_data`.  Modelled from the spec, like `StonfiSwapMsg`. -/
structure StonfiPayReq where
  amount0Out : Int
  token0Out : String
  amount1Out : Int
  token1Out : String
  exitCode : Int
deriving DecidableEq, Repr

/-- A message body: the decoded payload of a raw contract-call block. -/
inductive Body where
  | swapMsg (m : StonfiSwapMsg)
  | payReq (p : StonfiPayReq)
  | opaqueBody
deriving DecidableEq, Repr

/-- The `stonfi_swap_body` of a jetton transfer (keys `jetton_wallet`
and `user_address` are the ones read). -/
structure StonfiSwapBody where
  jettonWallet : String
  userAddress : String
deriving DecidableEq, Repr

/-- The `data` dictionary of a `JettonTransferBlock`, restricted to the
keys read by the Ston.fi V1 rule.  Modelled from the spec: the jetton
transfer matcher that populates it lives in
`indexer.events.blocks.jettons` (not under `src/`). -/
structure JTData where
  hasInternalTransfer : Bool
  sender : Option AccountId
  senderWallet : Option AccountId
  receiver : Option AccountId
  receiverWallet : Option AccountId
  stonfiSwapBody : Option StonfiSwapBody
deriving DecidableEq, Repr

/-- A node of the block DAG as seen by the Ston.fi V1 rule: either a
raw contract-call block (`CallContractBlock`) or a matched jetton
transfer (`JettonTransferBlock`).  `bid` models Python object identity
(used by `in` / `remove` on block lists); `prev`/`nexts` mirror
`previous_block` / `next_blocks`. -/
inductive SBlock where
  | callContract (bid : Nat) (opcode : Int) (body : Body)
      (prev : Option SBlock) (nexts : List SBlock)
  | jettonTransfer (bid : Nat) (data : JTData)
      (prev : Option SBlock) (nexts : List SBlock)
deriving Repr

/-- Object identity of a block. -/
def SBlock.bid : SBlock → Nat
  | .callContract i _ _ _ _ => i
  | .jettonTransfer i _ _ _ => i

/-- The `next_blocks` adjacency. -/
def SBlock.nexts : SBlock → List SBlock
  | .callContract _ _ _ _ ns => ns
  | .jettonTransfer _ _ _ ns => ns

/-- The `previous_block` adjacency. -/
def SBlock.prev : SBlock → Option SBlock
  | .callContract _ _ _ p _ => p
  | .jettonTransfer _ _ p _ => p

/-- The `isinstance(x, JettonTransferBlock)` test. -/
def SBlock.isJettonTransfer : SBlock → Bool
  | .jettonTransfer _ _ _ _ => true
  | _ => false

/-- The `isinstance(x, CallContractBlock) and x.opcode == op` test. -/
def SBlock.isCallWithOp (b : SBlock) (op : Int) : Bool :=
  match b with
  | .callContract _ o _ _ _ => o == op
  | _ => false

/-- The `get_body()` accessor (decoded; raises on a non-call block). -/
def SBlock.getBody : SBlock → Except Err Body
  | .callContract _ _ b _ _ => .ok b
  | _ => .error Err.attributeError

/-- Access to the `data` dictionary of a jetton transfer block (a
`KeyError`/`AttributeError` on any other kind of block). -/
def SBlock.jtData : SBlock → Except Err JTData
  | .jettonTransfer _ d _ _ => .ok d
  | _ => .error Err.attributeError

/-- The helper `find_call_contracts(blocks, opcode)` from the block
utils.  Modelled from the spec: the helper module is not under `src/`;
per its use it returns the contract-call blocks with the given opcode,
in list order. -/
def findCallContracts (bs : List SBlock) (op : Int) : List SBlock :=
  bs.filter (fun b => b.isCallWithOp op)

/-- Python's `next(...)` over a generator filtering for a jetton
transfer block; raises `StopIteration` when exhausted. -/
def nextJT (bs : List SBlock) : Except Err SBlock :=
  match bs.find? (·.isJettonTransfer) with
  | some b => .ok b
  | none => .error Err.stopIteration

/-- Dereference of an optional value; `none` models Python's
`AttributeError` on `None` (or a missing object). -/
def expectSome {α : Type} (o : Option α) (e : Err) : Except Err α :=
  match o with
  | some a => .ok a
  | none => .error e

/-- Decoding `StonfiSwapMessage(body)`. -/
def parseSwapMsg : Body → Except Err StonfiSwapMsg
  | .swapMsg m => .ok m
  | _ => .error Err.decodeError

/-- Decoding `StonfiPaymentRequest(body)`. -/
def parsePayReq : Body → Except Err StonfiPayReq
  | .payReq p => .ok p
  | _ => .error Err.decodeError

/-- The block together with all blocks reachable along `next_blocks`
(`Block.bfs_iter`).  Modelled from the spec: `Block` lives in
`indexer.events.blocks.core` (not under `src/`); the traversal yields
the block and its descendants. -/
def bfsList : SBlock → List SBlock
  | .callContract i o b p ns =>
      SBlock.callContract i o b p ns :: ns.attach.flatMap (fun x => bfsList x.1)
  | .jettonTransfer i d p ns =>
      SBlock.jettonTransfer i d p ns :: ns.attach.flatMap (fun x => bfsList x.1)
termination_by b => sizeOf b
decreasing_by
  all_goals
    have hm := List.sizeOf_lt_of_mem x.2
    simp only [SBlock.callContract.sizeOf_spec,
      SBlock.jettonTransfer.sizeOf_spec]
    omega

/-- Remove the first list element with the given object identity
(no-op when absent), as `if b in other_blocks:
other_blocks.remove(b)`. -/
def eraseByBid : List SBlock → Nat → List SBlock
  | [], _ => []
  | x :: xs, i => if x.bid == i then xs else x :: eraseByBid xs i

/-- The removal loop of the referral branch:
`for b in payment_request_block.bfs_iter(): if b in other_blocks:
other_blocks.remove(b)`. -/
def removeBlocks (others : List SBlock) (toRemove : List SBlock) :
    List SBlock :=
  toRemove.foldl (fun obs b => eraseByBid obs b.bid) others

/-- Exit codes (`swaps.py:62-70`). -/
def stonfi_swap_ok_exit_code : Int := 0xc64370e5

/-- The referral payout exit code. -/
def stonfi_swap_ok_ref_exit_code : Int := 0x45078540

/-- The no-liquidity refund exit code. -/
def stonfi_swap_no_liq_exit_code : Int := 0x5ffe1295

/-- The reserve-error refund exit code. -/
def stonfi_swap_reserve_err_exit_code : Int := 0x38976e9b

/-- The list `stonfi_sender_related_exit_codes`. -/
def stonfi_sender_related_exit_codes : List Int :=
  [stonfi_swap_reserve_err_exit_code,
   stonfi_swap_no_liq_exit_code,
   stonfi_swap_ok_exit_code]

/-- A `dex_incoming_transfer` / `dex_outgoing_transfer` dictionary. -/
structure TransferData where
  asset : Asset
  amount : Amount
  source : Option AccountId
  sourceJettonWallet : Option AccountId
  destination : Option AccountId
  destinationJettonWallet : Option AccountId
deriving DecidableEq, Repr

/-- The dictionary returned by `_get_block_data`. -/
structure SwapData where
  dex : String
  sender : AccountId
  receiver : AccountId
  dexIncomingTransfer : TransferData
  dexOutgoingTransfer : TransferData
  destinationAsset : Option Asset
  destinationWallet : Option AccountId
  referralAmount : Amount
  referralAddress : Option AccountId
  peerSwaps : List Unit
  success : Bool
deriving DecidableEq, Repr

/-- State of the loop
`for payment_request, payment_request_block in payment_requests_messages:`
(`swaps.py:98-124`), including the mutable `other_blocks` list. -/
structure PRLoopState where
  outAmt : Option Int
  outAddr : Option String
  refAmt : Option Int
  refAddr : Option String
  outgoingJT : Option SBlock
  success : Bool
  others : List SBlock

/-- One iteration of the payment-request loop: pick the nonzero side's
amount/token, then, for a sender-related exit code, record the (larger)
payout and its following jetton transfer; for the referral exit code,
record the referral and remove the referral subtree from
`other_blocks`. -/
def prStep (st : PRLoopState) (pr : StonfiPayReq × SBlock) :
    Except Err PRLoopState := do
  let (p, prBlock) := pr
  let (amount, addr) :=
    if p.amount0Out > 0 then (p.amount0Out, p.token0Out)
    else (p.amount1Out, p.token1Out)
  if p.exitCode ∈ stonfi_sender_related_exit_codes then
    let success := p.exitCode == stonfi_swap_ok_exit_code
    match st.outAmt with
    | none => do
        let jt ← nextJT prBlock.nexts
        Except.ok { st with success := success, outgoingJT := some jt,
                            outAmt := some amount, outAddr := some addr }
    | some oa =>
        if oa < amount then do
          let jt ← nextJT prBlock.nexts
          Except.ok { st with success := success, outgoingJT := some jt,
                              refAmt := some oa, refAddr := st.outAddr,
                              outAmt := some amount, outAddr := some addr }
        else Except.ok { st with success := success }
  else if p.exitCode == stonfi_swap_ok_ref_exit_code then
    Except.ok { st with refAmt := some amount, refAddr := some addr,
                        others := removeBlocks st.others (bfsList prBlock) }
  else Except.ok st

/-- Environment of the Ston.fi V1 rule: the two message opcodes
(constants of the decoder classes, modelled from the spec since the
decoder module is not under `src/`) and the metadata cache's
`get_jetton_wallet` (per §6: `resolve(account_id) -> info | none`). -/
structure SwapEnv where
  swapMsgOpcode : Int
  paymentRequestOpcode : Int
  getJettonWallet : String → Option JettonWallet

/-- The list comprehension
`[(StonfiPaymentRequest(x.get_body()), x) for x in ...]`: decode each
payment-request block in order, propagating a decode exception. -/
def parsePRs : List SBlock → Except Err (List (StonfiPayReq × SBlock))
  | [] => Except.ok []
  | b :: bs => do
    let p ← parsePayReq (← b.getBody)
    let rest ← parsePRs bs
    Except.ok ((p, b) :: rest)

/-- Shallow embedding of `_get_block_data(block, other_blocks)`
(`swaps.py:80-185`).  Returns the swap data dictionary together with
the (possibly mutated) `other_blocks` list; `Except.error` models a
raised exception (`StopIteration`, failed `assert`, attribute access on
`None`, decode error). -/
def get_block_data (env : SwapEnv) (block : SBlock)
    (otherBlocks : List SBlock) : Except Err (SwapData × List SBlock) := do
  let swapCallBlock ← expectSome
    (otherBlocks.find? (fun b => b.isCallWithOp env.swapMsgOpcode))
    Err.stopIteration
  let swapMessage ← parseSwapMsg (← swapCallBlock.getBody)
  let paymentRequests ←
    parsePRs (findCallContracts otherBlocks env.paymentRequestOpcode)
  let _ ← (if paymentRequests.length > 0 then Except.ok ()
           else Except.error Err.assertionError)
  let inJettonTransfer := swapCallBlock.prev
  let st ← paymentRequests.foldlM prStep
    ⟨none, none, none, none, none, false, otherBlocks⟩
  let actualOutAddr := st.outAddr
  let outAddr : Option String :=
    match block with
    | .jettonTransfer _ d _ _ =>
      match d.stonfiSwapBody with
      | some sb => some sb.jettonWallet
      | none => st.outAddr
    | _ => st.outAddr
  let outAddrV ← expectSome outAddr Err.attributeError
  let outWallet := env.getJettonWallet outAddrV.toUpper
  let actualOutAddrV ← expectSome actualOutAddr Err.attributeError
  let actualOutWallet := env.getJettonWallet actualOutAddrV.toUpper
  let dexInWallet := env.getJettonWallet swapMessage.tokenWallet.toUpper
  let actualOutJetton := actualOutWallet.map (fun w => AccountId.mk w.jetton)
  let outJetton := outWallet.map (fun w => AccountId.mk w.jetton)
  let inJetton := dexInWallet.map (fun w => AccountId.mk w.jetton)
  let inJT ← expectSome inJettonTransfer Err.attributeError
  let inJTData ← inJT.jtData
  let inSourceJettonWallet :=
    if inJTData.hasInternalTransfer then inJTData.senderWallet else none
  let outJTB ← expectSome st.outgoingJT Err.attributeError
  let outJTData ← outJTB.jtData
  let outDestinationJettonWallet :=
    if outJTData.hasInternalTransfer then outJTData.receiverWallet else none
  let dexInW ← expectSome dexInWallet Err.attributeError
  let incomingTransfer : TransferData :=
    { asset := ⟨inJetton.isNone, inJetton⟩,
      amount := ⟨some swapMessage.amount⟩,
      source := some ⟨swapMessage.fromRealUser⟩,
      sourceJettonWallet := inSourceJettonWallet,
      destination := some ⟨dexInW.owner⟩,
      destinationJettonWallet := some ⟨swapMessage.tokenWallet⟩ }
  let outgoingBase : TransferData :=
    { asset := ⟨actualOutJetton.isNone, actualOutJetton⟩,
      amount := ⟨st.outAmt⟩,
      source := outJTData.sender,
      sourceJettonWallet := outJTData.senderWallet,
      destination := none,
      destinationJettonWallet := none }
  let outgoingTransfer : TransferData :=
    match outDestinationJettonWallet with
    | some w =>
      { outgoingBase with destinationJettonWallet := some w,
                          destination := outJTData.receiver }
    | none =>
      match inJTData.stonfiSwapBody with
      | some sb =>
        { outgoingBase with destination := some ⟨sb.userAddress⟩,
                            destinationJettonWallet := none }
      | none =>
        { outgoingBase with
            destination := some ⟨swapMessage.fromUserAddress⟩,
            destinationJettonWallet := none }
  let targetAsset : Option Asset :=
    match outJetton with
    | some _ => some ⟨outJetton.isNone, outJetton⟩
    | none => none
  Except.ok
    ({ dex := "stonfi",
       sender := ⟨swapMessage.fromRealUser⟩,
       receiver := ⟨swapMessage.fromUserAddress⟩,
       dexIncomingTransfer := incomingTransfer,
       dexOutgoingTransfer := outgoingTransfer,
       destinationAsset := targetAsset,
       destinationWallet := some ⟨outAddrV⟩,
       referralAmount := ⟨st.refAmt⟩,
       referralAddress := st.refAddr.map AccountId.mk,
       peerSwaps := [],
       success := st.success }, st.others)

/-- The composite block returned by the Ston.fi V1 rule's build: its
kind tag (`'jetton_swap'`), payload, `failed` flag, and the blocks it
merged. -/
structure SwapBlockOut where
  btype : String
  data : SwapData
  failed : Bool
  merged : List SBlock
deriving Repr

/-- The anchor test `StonfiSwapBlockMatcher.test_self`
(`swaps.py:197-198`). -/
def stonfiTestSelf (block : SBlock) : Bool :=
  block.isJettonTransfer

/-- Shallow embedding of `StonfiSwapBlockMatcher.build_block`
(`swaps.py:200-208`): one `JettonSwapBlock` is created from the data,
marked `failed` when the swap did not succeed, and it merges the anchor
plus all other matched blocks. -/
def stonfiBuildBlock (env : SwapEnv) (block : SBlock)
    (otherBlocks : List SBlock) : Except Err (List SwapBlockOut) := do
  let (data, others') ← get_block_data env block otherBlocks
  Except.ok [{ btype := "jetton_swap", data := data,
               failed := !data.success, merged := block :: others' }]

/-- The matched block set for the scenario
swap-call → payment-request → jetton-transfer: the anchor is the
incoming jetton transfer (it is the block on which `test_self`
succeeds), its child sequence is the swap call, the payment request and
the outgoing jetton transfer — exactly the `child_sequence_matcher`
chain of `StonfiSwapBlockMatcher.__init__` (`swaps.py:188-195`).
Returns `(anchor, other_blocks)`. -/
def stonfiScenario1 (swapOp payOp : Int) (m : StonfiSwapMsg)
    (p : StonfiPayReq) (jtIn jtOut : JTData) : SBlock × List SBlock :=
  let outJT := SBlock.jettonTransfer 3 jtOut none []
  let payB := SBlock.callContract 2 payOp (.payReq p) none [outJT]
  let anchorPrev := SBlock.jettonTransfer 0 jtIn none []
  let swapB := SBlock.callContract 1 swapOp (.swapMsg m) (some anchorPrev) [payB]
  let anchor := SBlock.jettonTransfer 0 jtIn none [swapB]
  (anchor, [swapB, payB, outJT])

/-- A matched set with two payment requests (each followed by its own
jetton transfer), used for the best-of-many selection of `swaps.py:
98-124`.  Returns `(anchor, other_blocks)`; the payment requests occur
in `other_blocks` in the order `p1`, `p2`. -/
def stonfiScenario2 (swapOp payOp : Int) (m : StonfiSwapMsg)
    (p1 p2 : StonfiPayReq) (jtIn jtOut1 jtOut2 : JTData) :
    SBlock × List SBlock :=
  let outJT1 := SBlock.jettonTransfer 3 jtOut1 none []
  let outJT2 := SBlock.jettonTransfer 5 jtOut2 none []
  let payB1 := SBlock.callContract 2 payOp (.payReq p1) none [outJT1]
  let payB2 := SBlock.callContract 4 payOp (.payReq p2) none [outJT2]
  let anchorPrev := SBlock.jettonTransfer 0 jtIn none []
  let swapB := SBlock.callContract 1 swapOp (.swapMsg m) (some anchorPrev)
    [payB1, payB2]
  let anchor := SBlock.jettonTransfer 0 jtIn none [swapB]
  (anchor, [swapB, payB1, outJT1, payB2, outJT2])

end Swaps

namespace Classifier

/-- Whether `tasks[0].trace_id is not None` (on the empty list the
worker raises instead; the value is irrelevant there). -/
def batchIsTraceBatch (tasks : List ClassifierTask) : Bool :=
  match tasks with
  | [] => false
  | t :: _ => t.traceId.isSome

/-- The traces the batch loads, expressed directly in terms of the
batch: the cleanup deletes do not touch the `traces` table and the
scan accumulators are the tasks' trace ids / seqnos in order. -/
def batchTraces {β : Type} (env : WorkerEnv β) (db : Db)
    (tasks : List ClassifierTask) : List Trace :=
  loadTraces db (batchIsTraceBatch tasks) (tasks.filterMap (·.traceId))
    (tasks.map (·.mcSeqno)) env.bigTracesThreshold

/-- The per-trace results the staging loop receives
(`results = await asyncio.gather(*(process_trace(trace) for trace in
traces))`). -/
def batchResults {β : Type} (env : WorkerEnv β) (db : Db)
    (tasks : List ClassifierTask) : List TraceResult :=
  (batchTraces env db tasks).map (fun tr => (processTrace env.proc tr).1)

/-- The results whose actions get staged (`state == 'ok' or 'broken'`). -/
def stagedResults (results : List TraceResult) : List TraceResult :=
  results.filter (fun r => r.state == "ok" || r.state == "broken")

/-- All actions staged by the loop, in staging order. -/
def stagedActionsOf (results : List TraceResult) : List Action :=
  (stagedResults results).flatMap (·.actions)

/-- The `(action_id, trace_id)` pairs of the staged actions. -/
def stagedActionPairs (results : List TraceResult) : List (String × String) :=
  (stagedActionsOf results).map (fun a => (a.actionId, a.traceId))

/-- The `(account, action_id, trace_id)` triples of the staged Action
Accounts. -/
def stagedAccountTriples (results : List TraceResult) :
    List (String × String × String) :=
  (stagedActionsOf results).flatMap
    (fun a => a.actionAccounts.map (fun aa => (aa.account, aa.actionId, aa.traceId)))

/-- The duplicate-check keys of the staged actions, as computed by the
source (`action.action_id + '_' + action.trace_id`). -/
def stagedActionKeys (results : List TraceResult) : List String :=
  (stagedActionsOf results).map actionKey

/-- The duplicate-check keys of the staged Action Accounts, as computed
by the source. -/
def stagedAccountKeys (results : List TraceResult) : List String :=
  (stagedActionsOf results).flatMap
    (fun a => a.actionAccounts.map (accountKey a))

/-- Claim C1's property, for one batch against one store: an exception
anywhere in the body rolls the transaction back (store unchanged,
`(False, 0, 0, 0)` reported); with no exception the committed store is
exactly the session state, in which the batch's tasks have been
deleted. -/
def batchAtomicityProp {β : Type} (env : WorkerEnv β) (db : Db)
    (tasks : List ClassifierTask) : Prop :=
  (∀ e, batchBody env db tasks = .error e →
      process_trace_batch_async env db tasks = (db, (false, 0, 0, 0)))
  ∧ (∀ db' s, batchBody env db tasks = .ok (db', s) →
      process_trace_batch_async env db tasks = (db', s)
      ∧ db'.tasks = db.tasks.filter (fun r => r.id ∉ tasks.map (·.id)))

/-- Claim C2's conclusion: the worker raises before committing — the
batch transaction aborts, the store is unchanged (nothing is silently
deduplicated into it) and `(False, 0, 0, 0)` is reported. -/
def duplicateFailLoudProp {β : Type} (env : WorkerEnv β) (db : Db)
    (tasks : List ClassifierTask) : Prop :=
  ∃ e, batchBody env db tasks = Except.error e
    ∧ process_trace_batch_async env db tasks = (db, (false, 0, 0, 0))

/-- Claim C4's property: the claimed set is exactly the eligible rows
(lease absent or older than 5 minutes, not-before absent or elapsed),
up to `batch_size` many, in `mc_seqno DESC NULLS FIRST` order; their
lease is set to `now` in the same atomic statement, and no other row is
touched. -/
def claimerSelectionProp (now : Int) (batchSize : Nat)
    (table : List TaskRow) : Prop :=
  (selectedRows now batchSize table).length ≤ batchSize
  ∧ (∀ r ∈ selectedRows now batchSize table,
      (r.claimedAt = none ∨ ∃ t, r.claimedAt = some t ∧ t < now - 300)
      ∧ (r.startAfter = none ∨ ∃ t, r.startAfter = some t ∧ t ≤ now))
  ∧ (selectedRows now batchSize table).Pairwise
      (fun a b => seqnoDescNullsFirst a b = true)
  ∧ (∀ r ∈ selectedRows now batchSize table,
      r ∈ table ∧ taskEligible now r = true)
  ∧ ((table.filter (taskEligible now)).length ≤ batchSize →
      (selectedRows now batchSize table).Perm (table.filter (taskEligible now)))
  ∧ (readBatchQuery now batchSize table).2 =
      (selectedRows now batchSize table).map
        (fun r => { r with claimedAt := some now })
  ∧ (readBatchQuery now batchSize table).1 =
      table.map (fun r =>
        if r.id ∈ (selectedRows now batchSize table).map (·.id)
        then { r with claimedAt := some now } else r)
  ∧ (∀ r ∈ table, r.id ∉ (selectedRows now batchSize table).map (·.id) →
      r ∈ (readBatchQuery now batchSize table).1)

/-- Claim C8's property: the split yields one singleton batch per seqno
task plus, exactly when a trace task exists, one combined batch of all
trace tasks; every claimed task lands in exactly one batch (counting
multiplicity). -/
def splitBatchesProp (tasks : List ClassifierTask) : Prop :=
  splitTasksIntoBatches tasks =
    (tasks.filter (fun t => t.traceId.isNone)).map (fun t => [t])
      ++ (if tasks.filter (fun t => t.traceId.isSome) = [] then []
          else [tasks.filter (fun t => t.traceId.isSome)])
  ∧ (splitTasksIntoBatches tasks).flatten.Perm tasks
  ∧ ∀ t : ClassifierTask,
      ((splitTasksIntoBatches tasks).map (fun b => b.count t)).sum =
        tasks.count t

/-- Claim C5's property: the tick-tock short circuit returns
`(trace_id, 'ok', [], None)` making no external call, for every
environment. -/
def tickTockProp {β : Type} (env : ProcEnv β) (trace : Trace) : Prop :=
  processTrace env trace = (⟨trace.traceId, "ok", [], none⟩, [])

/-- Concrete single tick-tock-transaction trace. -/
def wTraceTick : Trace := ⟨"t1", 7, 1, [⟨"tick_tock"⟩]⟩

/-- Concrete single ordinary-transaction trace. -/
def wTraceOrd : Trace := ⟨"t2", 7, 1, [⟨"ord"⟩]⟩

/-- Concrete action used by witness environments. -/
def wAction : Action := ⟨"a0", "t2", []⟩

/-- Environment in which every external step succeeds. -/
def wEnvOk : ProcEnv Unit :=
  ⟨fun _ => .ok (), fun _ _ _ => .ok ([], "ok"),
   fun _ => .ok [], fun _ => .ok wAction⟩

/-- Environment in which classification raises but the fallback
synthesis succeeds. -/
def wEnvFail : ProcEnv Unit :=
  ⟨fun _ => .error Err.externalError, fun _ _ _ => .ok ([], "ok"),
   fun _ => .ok [], fun _ => .ok wAction⟩

/-- Environment in which classification raises and the fallback
synthesis raises too. -/
def wEnvFailBoth : ProcEnv Unit :=
  ⟨fun _ => .error Err.externalError, fun _ _ _ => .ok ([], "ok"),
   fun _ => .ok [], fun _ => .error Err.externalError⟩

/-- Worker environment over `wEnvOk`. -/
def wEnvB : WorkerEnv Unit := ⟨wEnvOk, .ok (), 4000⟩

/-- Worker environment whose serializer emits the same action twice for
every trace (a rule-authoring defect). -/
def wEnvDup : WorkerEnv Unit :=
  ⟨⟨fun _ => .ok (), fun _ _ _ => .ok ([wAction, wAction], "ok"),
    fun _ => .ok [], fun _ => .ok wAction⟩, .ok (), 4000⟩

/-- A store holding the single unclassified trace `wTraceOrd` and its
backlog task row. -/
def wDb : Db :=
  { actions := [], actionAccounts := [], failedTraces := [],
    tasks := [⟨1, some 7, some "t2", none, none, none⟩],
    blocksClassified := [], traces := [wTraceOrd] }

/-- The trace task claiming `wTraceOrd`. -/
def wTask : ClassifierTask := ⟨1, some 7, some "t2", none⟩

end Classifier

namespace Swaps

open Classifier (Err)

/-- Claim C7's property for the scenario
swap-call → payment-request → jetton-transfer: the anchor passes
`test_self`, and the build produces exactly one `jetton_swap` block
whose incoming amount is the swap message's amount, whose outgoing
amount is the payment request's out amount, and whose `failed` flag is
set exactly when the exit code is not the OK code. -/
def stonfiScenarioProp (swapOp payOp : Int) (m : StonfiSwapMsg)
    (p : StonfiPayReq) (jtIn jtOut : JTData) (env : SwapEnv) : Prop :=
  stonfiTestSelf (stonfiScenario1 swapOp payOp m p jtIn jtOut).1 = true
  ∧ ∃ b, stonfiBuildBlock env (stonfiScenario1 swapOp payOp m p jtIn jtOut).1
        (stonfiScenario1 swapOp payOp m p jtIn jtOut).2 = .ok [b]
      ∧ b.btype = "jetton_swap"
      ∧ b.data.dex = "stonfi"
      ∧ b.data.dexIncomingTransfer.amount = Amount.mk (some m.amount)
      ∧ b.data.dexOutgoingTransfer.amount = Amount.mk (some p.amount0Out)
      ∧ b.failed = (p.exitCode != stonfi_swap_ok_exit_code)

/-- Claim C9 (amended): with two sender-related payment requests seen
in the order `p1`, `p2`, the larger out amount becomes the outgoing
transfer amount, and the smaller becomes the referral amount only when
the larger was encountered second (`p1 < p2`); otherwise the referral
fields stay unset. -/
def stonfiBestOfManyProp (swapOp payOp : Int) (m : StonfiSwapMsg)
    (p1 p2 : StonfiPayReq) (jtIn jtOut1 jtOut2 : JTData)
    (env : SwapEnv) : Prop :=
  ∃ b, stonfiBuildBlock env
      (stonfiScenario2 swapOp payOp m p1 p2 jtIn jtOut1 jtOut2).1
      (stonfiScenario2 swapOp payOp m p1 p2 jtIn jtOut1 jtOut2).2 = .ok [b]
    ∧ b.data.dexOutgoingTransfer.amount =
        Amount.mk (some (max p1.amount0Out p2.amount0Out))
    ∧ b.data.referralAmount =
        Amount.mk (if p1.amount0Out < p2.amount0Out then some p1.amount0Out
                   else none)
    ∧ b.data.referralAddress =
        (if p1.amount0Out < p2.amount0Out then some (AccountId.mk p1.token0Out)
         else none)

/-- Concrete jetton-transfer data with no embedded swap body. -/
def wJt : JTData := ⟨false, none, none, none, none, none⟩

/-- Concrete swap message. -/
def wMsg : StonfiSwapMsg := ⟨5, "w", "ru", "ua"⟩

/-- Concrete successful payment request paying out 100. -/
def wPayOk : StonfiPayReq := ⟨100, "o0", 0, "o1", stonfi_swap_ok_exit_code⟩

/-- Concrete no-liquidity payment request paying out 100. -/
def wPayNoLiq : StonfiPayReq := ⟨100, "o0", 0, "o1", stonfi_swap_no_liq_exit_code⟩

/-- Concrete second payment request paying out the smaller 50. -/
def wPaySmall : StonfiPayReq := ⟨50, "o2", 0, "o3", stonfi_swap_ok_exit_code⟩

/-- Concrete second payment request paying out the larger 200. -/
def wPayBig : StonfiPayReq := ⟨200, "o2", 0, "o3", stonfi_swap_ok_exit_code⟩

/-- Concrete environment: opcodes 1 / 2, every account resolves to the
same jetton wallet. -/
def wSwapEnv : SwapEnv := ⟨1, 2, fun _ => some ⟨"J", "O"⟩⟩

end Swaps

namespace Classifier

/-- C5: for every trace with exactly one transaction whose description
kind is `'tick_tock'`, `process_trace` returns `'ok'` with an empty
action list, making no external call (in particular invoking no matcher
rule), whatever the environment. -/
theorem tick_tock_short_circuit {β : Type} (env : ProcEnv β) (trace : Trace)
    (h : tickTock trace = true) : tickTockProp env trace := by
  simp [tickTockProp, processTrace, h]

/-- Witness for C5 at the concrete trace `wTraceTick`. -/
theorem tick_tock_short_circuit_witness :
    tickTock wTraceTick = true ∧ tickTockProp wEnvOk wTraceTick :=
  ⟨rfl, tick_tock_short_circuit wEnvOk wTraceTick rfl⟩

/-- C3: if the classification of a (non-tick-tock) trace raises and the
fallback synthesis returns an action `a`, `process_trace` catches the
exception and returns `(trace_id, 'failed', [a], e)`; the exception
never propagates (`processTrace` is a total function by
construction). -/
theorem per_trace_failure_containment {β : Type} (env : ProcEnv β)
    (trace : Trace) (e : Err) (a : Action)
    (hnt : tickTock trace = false)
    (htry : (processTraceTry env trace).1 = Except.error e)
    (hsynth : env.createUnknown trace = Except.ok a) :
    (processTrace env trace).1 = ⟨trace.traceId, "failed", [a], some e⟩ := by
  unfold processTrace
  rcases hpt : processTraceTry env trace with ⟨res, calls⟩
  rw [hpt] at htry
  simp only at htry
  subst htry
  simp [hnt, hsynth]

/-- Witness for C3: concrete failing classification with successful
synthesis. -/
theorem per_trace_failure_containment_witness :
    tickTock wTraceOrd = false
    ∧ (processTraceTry wEnvFail wTraceOrd).1 = Except.error Err.externalError
    ∧ wEnvFail.createUnknown wTraceOrd = Except.ok wAction
    ∧ (processTrace wEnvFail wTraceOrd).1 =
        ⟨wTraceOrd.traceId, "failed", [wAction], some Err.externalError⟩ :=
  ⟨rfl, rfl, rfl,
   per_trace_failure_containment wEnvFail wTraceOrd Err.externalError wAction
     rfl rfl rfl⟩

/-- C6: when classification of a (non-tick-tock, non-empty) trace
reaches its fixpoint with zero serialized actions, `process_trace`
makes exactly one call to the catch-all unknown classifier before
returning. -/
theorem unknown_fallback_once {β : Type} (env : ProcEnv β) (trace : Trace)
    (b : β) (st : String)
    (hnt : tickTock trace = false)
    (hpe : env.processEvent trace = Except.ok b)
    (hsb : env.serializeBlocks b trace.traceId trace = Except.ok ([], st))
    (htx : 0 < trace.transactions.length) :
    ((processTrace env trace).2.count ExtCall.tryClassifyUnknown) = 1 := by
  cases htc : env.tryClassifyUnknown trace with
  | ok asx =>
    simp [processTrace, processTraceTry, hnt, hpe, hsb, htc, htx]
    decide
  | error e =>
    cases hcu : env.createUnknown trace <;>
      (simp [processTrace, processTraceTry, hnt, hpe, hsb, htc, hcu, htx]
       decide)

/-- Witness for C6 at a concrete trace whose classification serializes
zero actions. -/
theorem unknown_fallback_once_witness :
    tickTock wTraceOrd = false
    ∧ wEnvOk.processEvent wTraceOrd = Except.ok ()
    ∧ wEnvOk.serializeBlocks () wTraceOrd.traceId wTraceOrd =
        Except.ok ([], "ok")
    ∧ 0 < wTraceOrd.transactions.length
    ∧ ((processTrace wEnvOk wTraceOrd).2.count ExtCall.tryClassifyUnknown) = 1 :=
  ⟨rfl, rfl, rfl, by decide,
   unknown_fallback_once wEnvOk wTraceOrd () "ok" rfl rfl rfl (by decide)⟩

/-- C10: `process_trace` is total (it is a Lean function into the
result-pair type, so it always returns its 4-tuple); assuming the
serializer only produces the states `'ok'`/`'broken'` (its contract per
§4.3 of the spec, the serializer itself being outside `src/`), the
returned state is always one of `'ok'`, `'broken'`, `'failed'`; and
when both the classification and the fallback synthesis raise, the
result is `('failed', [])` with the original error, not a propagated
exception. -/
theorem process_trace_total_interface {β : Type} (env : ProcEnv β)
    (trace : Trace)
    (hser : ∀ (b : β) acts st,
      env.serializeBlocks b trace.traceId trace = Except.ok (acts, st) →
      st = "ok" ∨ st = "broken") :
    ((processTrace env trace).1.state = "ok"
      ∨ (processTrace env trace).1.state = "broken"
      ∨ (processTrace env trace).1.state = "failed")
    ∧ (∀ e e', tickTock trace = false →
        (processTraceTry env trace).1 = Except.error e →
        env.createUnknown trace = Except.error e' →
        (processTrace env trace).1 = ⟨trace.traceId, "failed", [], some e⟩) := by
  constructor
  · by_cases htt : tickTock trace = true
    · simp [processTrace, htt]
    · rw [Bool.not_eq_true] at htt
      cases hpe : env.processEvent trace with
      | error e =>
        cases hcu : env.createUnknown trace <;>
          simp [processTrace, processTraceTry, htt, hpe, hcu]
      | ok b =>
        cases hsb : env.serializeBlocks b trace.traceId trace with
        | error e =>
          cases hcu : env.createUnknown trace <;>
            simp [processTrace, processTraceTry, htt, hpe, hsb, hcu]
        | ok p =>
          rcases p with ⟨acts, st⟩
          have hst := hser b acts st hsb
          by_cases hif :
              (acts.length == 0 && decide (0 < trace.transactions.length)) = true
          · cases htc : env.tryClassifyUnknown trace with
            | error e =>
              cases hcu : env.createUnknown trace <;>
                simp [processTrace, processTraceTry, htt, hpe, hsb, hif, htc, hcu]
            | ok as2 =>
              rcases hst with h | h <;>
                simp [processTrace, processTraceTry, htt, hpe, hsb, hif, htc, h]
          · rcases hst with h | h <;>
              simp [processTrace, processTraceTry, htt, hpe, hsb, hif, h]
  · intro e e' htt htry hcu
    unfold processTrace
    rcases hpt : processTraceTry env trace with ⟨res, calls⟩
    rw [hpt] at htry
    simp only at htry
    subst htry
    simp [htt, hcu]

end Classifier


namespace Classifier

/-- Inversion of a successful `Except` bind. -/
theorem except_bind_ok {α γ : Type} {x : Except Err α} {f : α → Except Err γ}
    {b : γ} (h : (x >>= f) = Except.ok b) :
    ∃ a, x = Except.ok a ∧ f a = Except.ok b := by
  cases x with
  | ok a => exact ⟨a, rfl, h⟩
  | error e => simp [Bind.bind, Except.bind] at h

/-- Staging a result never touches the session's `tasks` table. -/
theorem stageResult_tasks {st : StageState} {r : TraceResult}
    {st' : StageState} (h : stageResult st r = Except.ok st') :
    st'.sdb.tasks = st.sdb.tasks := by
  unfold stageResult at h
  by_cases hc : (r.state == "ok" || r.state == "broken") = true
  · rw [if_pos hc] at h
    obtain ⟨trip, _, hf⟩ := except_bind_ok h
    rcases trip with ⟨insA', insAA', accRows⟩
    dsimp only at hf
    by_cases hok : (r.state == "ok") = true
    · rw [if_pos hok] at hf
      cases hf
      rfl
    · rw [if_neg hok] at hf
      cases hf
      rfl
  · rw [if_neg hc] at h
    cases h
    rfl

/-- The staging loop never touches the session's `tasks` table. -/
theorem stageResults_tasks {results : List TraceResult} :
    ∀ {st st' : StageState},
      results.foldlM stageResult st = Except.ok st' →
      st'.sdb.tasks = st.sdb.tasks := by
  induction results with
  | nil =>
    intro st st' h
    simp only [List.foldlM_nil] at h
    cases h; rfl
  | cons r rs ih =>
    intro st st' h
    rw [List.foldlM_cons] at h
    obtain ⟨st1, h1, h2⟩ := except_bind_ok h
    exact (ih h2).trans (stageResult_tasks h1)

/-- Marking a seqno classified never touches the `tasks` table. -/
theorem markBlockClassified_tasks {d : Db} {t : ClassifierTask} {d' : Db}
    (h : markBlockClassified d t = Except.ok d') : d'.tasks = d.tasks := by
  unfold markBlockClassified at h
  split at h
  · cases h
  · cases h
    split <;> rfl

/-- The `blocks_classified` epilogue never touches the `tasks` table. -/
theorem markBlocks_tasks {tasks : List ClassifierTask} :
    ∀ {d d' : Db}, tasks.foldlM markBlockClassified d = Except.ok d' →
      d'.tasks = d.tasks := by
  induction tasks with
  | nil =>
    intro d d' h
    simp only [List.foldlM_nil] at h
    cases h; rfl
  | cons t ts ih =>
    intro d d' h
    rw [List.foldlM_cons] at h
    obtain ⟨d1, h1, h2⟩ := except_bind_ok h
    exact (ih h2).trans (markBlockClassified_tasks h1)

/-- The cleanup deletes never touch the `tasks` table. -/
theorem cleanupDb_tasks (db : Db) (cl : List String) :
    (cleanupDb db cl).tasks = db.tasks := by
  unfold cleanupDb
  split <;> rfl

/-- C1: batch atomicity.  Any exception inside the transaction body
(including a duplicate-key exception while staging) rolls the whole
transaction back — the store is unchanged, so no staged action is
visible and the batch's `ClassifierTask`s remain — and the worker
reports `(False, 0, 0, 0)`; without an exception the commit publishes
the session state, in which the batch's tasks have been deleted
together with all the staged actions of the batch. -/
theorem batch_atomicity {β : Type} (env : WorkerEnv β) (db : Db)
    (tasks : List ClassifierTask) : batchAtomicityProp env db tasks := by
  constructor
  · intro e he
    unfold process_trace_batch_async
    rw [he]
  · intro db' s h
    have hp : process_trace_batch_async env db tasks = (db', s) := by
      unfold process_trace_batch_async
      rw [h]
    refine ⟨hp, ?_⟩
    unfold batchBody at h
    cases tasks with
    | nil => cases h
    | cons t0 rest =>
      simp only at h
      split at h
      · cases h
      · split at h
        · cases h
        · split at h
          · cases h
          · rename_i st hst
            split at h
            · cases h
            · rename_i db2 hdb2
              cases h
              have hst' := stageResults_tasks hst
              have hdb2t : db2.tasks = db.tasks := by
                split at hdb2
                · cases hdb2
                  exact hst'.trans (cleanupDb_tasks db _)
                · exact (markBlocks_tasks hdb2).trans
                    (hst'.trans (cleanupDb_tasks db _))
              simp only
              rw [hdb2t]

/-- Witness for C1: the empty batch raises (`tasks[0]` is an
`IndexError`), so the store is unchanged and `(False, 0, 0, 0)` is
reported. -/
theorem batch_atomicity_witness :
    process_trace_batch_async wEnvB wDb ([] : List ClassifierTask) =
      (wDb, (false, 0, 0, 0)) :=
  (batch_atomicity wEnvB wDb []).1 Err.indexError rfl

/-- The account-key checking loop succeeds exactly on fresh,
duplicate-free keys, and returns the inserted-set extended by them. -/
theorem accountsFold_ok {a : Action} :
    ∀ (accs : List ActionAccount) (ins ins' : List String),
      accs.foldlM
        (fun ins aa =>
          let k := accountKey a aa
          if k ∈ ins then Except.error Err.duplicateActionAccount
          else Except.ok (k :: ins)) ins = Except.ok ins' →
      ((accs.map (accountKey a)).Nodup
        ∧ ∀ k ∈ accs.map (accountKey a), k ∉ ins)
      ∧ (∀ k, k ∈ ins' ↔ k ∈ accs.map (accountKey a) ∨ k ∈ ins) := by
  intro accs
  induction accs with
  | nil =>
    intro ins ins' h
    simp only [List.foldlM_nil] at h
    cases h
    simp
  | cons aa accs ih =>
    intro ins ins' h
    rw [List.foldlM_cons] at h
    obtain ⟨ins1, h1, h2⟩ := except_bind_ok h
    by_cases hk : accountKey a aa ∈ ins
    · simp only [hk, if_pos] at h1
      cases h1
    · simp only [hk, if_neg, not_false_iff] at h1
      cases h1
      obtain ⟨⟨hnd, hdisj⟩, hmem⟩ := ih _ _ h2
      refine ⟨⟨?_, ?_⟩, ?_⟩
      · rw [List.map_cons, List.nodup_cons]
        refine ⟨fun hmem2 => ?_, hnd⟩
        exact (hdisj _ hmem2) (List.mem_cons_self _ _)
      · intro k hkmem
        rw [List.map_cons, List.mem_cons] at hkmem
        rcases hkmem with rfl | hkmem
        · exact hk
        · intro hki
          exact (hdisj _ hkmem) (List.mem_cons_of_mem _ hki)
      · intro k
        rw [hmem k, List.map_cons, List.mem_cons, List.mem_cons]
        tauto

/-- The per-action staging fold succeeds exactly on fresh,
duplicate-free action keys and account keys; the inserted-sets come out
extended by the processed keys. -/
theorem stageOneFold_ok :
    ∀ (actions : List Action) (insA insAA : List String)
      (rows : List ActionAccount)
      (out : List String × List String × List ActionAccount),
      actions.foldlM stageOne (insA, insAA, rows) = Except.ok out →
      (((actions.map actionKey).Nodup
          ∧ ∀ k ∈ actions.map actionKey, k ∉ insA)
        ∧ (∀ k, k ∈ out.1 ↔ k ∈ actions.map actionKey ∨ k ∈ insA))
      ∧ (((actions.flatMap fun a => a.actionAccounts.map (accountKey a)).Nodup
          ∧ ∀ k ∈ (actions.flatMap fun a => a.actionAccounts.map (accountKey a)),
              k ∉ insAA)
        ∧ (∀ k, k ∈ out.2.1 ↔
            k ∈ (actions.flatMap fun a => a.actionAccounts.map (accountKey a))
            ∨ k ∈ insAA)) := by
  intro actions
  induction actions with
  | nil =>
    intro insA insAA rows out h
    simp only [List.foldlM_nil] at h
    cases h
    simp
  | cons a as ih =>
    intro insA insAA rows out h
    rw [List.foldlM_cons] at h
    obtain ⟨st1, h1, h2⟩ := except_bind_ok h
    unfold stageOne at h1
    by_cases hk : actionKey a ∈ insA
    · simp only [hk, if_pos] at h1
      cases h1
    · simp only [hk, if_neg, not_false_iff] at h1
      obtain ⟨insAA1, hacc, hok⟩ := except_bind_ok h1
      cases hok
      obtain ⟨⟨hand, hadisj⟩, hamem⟩ := accountsFold_ok a.actionAccounts insAA insAA1 hacc
      obtain ⟨⟨⟨hnd, hdisj⟩, hmemA⟩, ⟨hnd2, hdisj2⟩, hmemAA⟩ := ih _ _ _ _ h2
      refine ⟨⟨⟨?_, ?_⟩, ?_⟩, ⟨?_, ?_⟩, ?_⟩
      · rw [List.map_cons, List.nodup_cons]
        exact ⟨fun hmem2 => (hdisj _ hmem2) (List.mem_cons_self _ _), hnd⟩
      · intro k hkmem
        rw [List.map_cons, List.mem_cons] at hkmem
        rcases hkmem with rfl | hkmem
        · exact hk
        · exact fun hki => (hdisj _ hkmem) (List.mem_cons_of_mem _ hki)
      · intro k
        rw [hmemA k, List.map_cons, List.mem_cons, List.mem_cons]
        tauto
      · rw [List.flatMap_cons, List.nodup_append]
        refine ⟨hand, hnd2, ?_⟩
        intro k hk1 hk2
        exact (hdisj2 _ hk2) ((hamem k).2 (Or.inl hk1))
      · intro k hkmem
        rw [List.flatMap_cons, List.mem_append] at hkmem
        rcases hkmem with hkmem | hkmem
        · exact hadisj _ hkmem
        · exact fun hki => (hdisj2 _ hkmem) ((hamem k).2 (Or.inr hki))
      · intro k
        rw [hmemAA k, hamem k, List.flatMap_cons, List.mem_append]
        tauto

/-- Unfolding `stagedActionKeys` over a staged head result. -/
theorem stagedActionKeys_cons_staged {r : TraceResult}
    {rs : List TraceResult}
    (h : (r.state == "ok" || r.state == "broken") = true) :
    stagedActionKeys (r :: rs) =
      r.actions.map actionKey ++ stagedActionKeys rs := by
  simp [stagedActionKeys, stagedActionsOf, stagedResults,
    List.filter_cons, h]

/-- Unfolding `stagedActionKeys` over a skipped head result. -/
theorem stagedActionKeys_cons_skip {r : TraceResult}
    {rs : List TraceResult}
    (h : ¬ (r.state == "ok" || r.state == "broken") = true) :
    stagedActionKeys (r :: rs) = stagedActionKeys rs := by
  simp [stagedActionKeys, stagedActionsOf, stagedResults,
    List.filter_cons, h]

/-- Unfolding `stagedAccountKeys` over a staged head result. -/
theorem stagedAccountKeys_cons_staged {r : TraceResult}
    {rs : List TraceResult}
    (h : (r.state == "ok" || r.state == "broken") = true) :
    stagedAccountKeys (r :: rs) =
      (r.actions.flatMap fun a => a.actionAccounts.map (accountKey a))
        ++ stagedAccountKeys rs := by
  simp [stagedAccountKeys, stagedActionsOf, stagedResults,
    List.filter_cons, h]

/-- Unfolding `stagedAccountKeys` over a skipped head result. -/
theorem stagedAccountKeys_cons_skip {r : TraceResult}
    {rs : List TraceResult}
    (h : ¬ (r.state == "ok" || r.state == "broken") = true) :
    stagedAccountKeys (r :: rs) = stagedAccountKeys rs := by
  simp [stagedAccountKeys, stagedActionsOf, stagedResults,
    List.filter_cons, h]

/-- A successful run of the staging loop implies that the staged action
keys and account keys are duplicate-free (and fresh with respect to the
starting inserted-sets). -/
theorem stageResults_ok :
    ∀ (results : List TraceResult) (st st' : StageState),
      results.foldlM stageResult st = Except.ok st' →
      ((stagedActionKeys results).Nodup
        ∧ ∀ k ∈ stagedActionKeys results, k ∉ st.insA)
      ∧ (∀ k, k ∈ st'.insA ↔ k ∈ stagedActionKeys results ∨ k ∈ st.insA)
      ∧ ((stagedAccountKeys results).Nodup
        ∧ ∀ k ∈ stagedAccountKeys results, k ∉ st.insAA)
      ∧ (∀ k, k ∈ st'.insAA ↔ k ∈ stagedAccountKeys results ∨ k ∈ st.insAA) := by
  intro results
  induction results with
  | nil =>
    intro st st' h
    simp only [List.foldlM_nil] at h
    cases h
    simp [stagedActionKeys, stagedAccountKeys, stagedActionsOf, stagedResults]
  | cons r rs ih =>
    intro st st' h
    rw [List.foldlM_cons] at h
    obtain ⟨st1, h1, h2⟩ := except_bind_ok h
    unfold stageResult at h1
    by_cases hc : (r.state == "ok" || r.state == "broken") = true
    · rw [if_pos hc] at h1
      obtain ⟨trip, hfold, hrest⟩ := except_bind_ok h1
      rcases trip with ⟨insA', insAA', accRows⟩
      dsimp only at hrest
      obtain ⟨⟨⟨hnd, hdisj⟩, hmemA⟩, ⟨hnd2, hdisj2⟩, hmemAA⟩ :=
        stageOneFold_ok r.actions st.insA st.insAA _ _ hfold
      have hst1A : st1.insA = insA' := by
        by_cases hok : (r.state == "ok") = true
        · rw [if_pos hok] at hrest; cases hrest; rfl
        · rw [if_neg hok] at hrest; cases hrest; rfl
      have hst1AA : st1.insAA = insAA' := by
        by_cases hok : (r.state == "ok") = true
        · rw [if_pos hok] at hrest; cases hrest; rfl
        · rw [if_neg hok] at hrest; cases hrest; rfl
      obtain ⟨⟨rnd, rdisj⟩, rmemA, ⟨rnd2, rdisj2⟩, rmemAA⟩ := ih st1 st' h2
      rw [hst1A] at rdisj rmemA
      rw [hst1AA] at rdisj2 rmemAA
      refine ⟨⟨?_, ?_⟩, ?_, ⟨?_, ?_⟩, ?_⟩
      · rw [stagedActionKeys_cons_staged hc, List.nodup_append]
        refine ⟨hnd, rnd, ?_⟩
        intro k hk1 hk2
        exact (rdisj _ hk2) ((hmemA k).2 (Or.inl hk1))
      · intro k hkmem
        rw [stagedActionKeys_cons_staged hc, List.mem_append] at hkmem
        rcases hkmem with hkmem | hkmem
        · exact hdisj _ hkmem
        · exact fun hki => (rdisj _ hkmem) ((hmemA k).2 (Or.inr hki))
      · intro k
        rw [rmemA k, hmemA k, stagedActionKeys_cons_staged hc,
          List.mem_append]
        tauto
      · rw [stagedAccountKeys_cons_staged hc, List.nodup_append]
        refine ⟨hnd2, rnd2, ?_⟩
        intro k hk1 hk2
        exact (rdisj2 _ hk2) ((hmemAA k).2 (Or.inl hk1))
      · intro k hkmem
        rw [stagedAccountKeys_cons_staged hc, List.mem_append] at hkmem
        rcases hkmem with hkmem | hkmem
        · exact hdisj2 _ hkmem
        · exact fun hki => (rdisj2 _ hkmem) ((hmemAA k).2 (Or.inr hki))
      · intro k
        rw [rmemAA k, hmemAA k, stagedAccountKeys_cons_staged hc,
          List.mem_append]
        tauto
    · rw [if_neg hc] at h1
      cases h1
      obtain ⟨⟨rnd, rdisj⟩, rmemA, ⟨rnd2, rdisj2⟩, rmemAA⟩ := ih _ st' h2
      refine ⟨⟨?_, ?_⟩, ?_, ⟨?_, ?_⟩, ?_⟩
      · rw [stagedActionKeys_cons_skip hc]; exact rnd
      · rw [stagedActionKeys_cons_skip hc]; exact rdisj
      · intro k
        rw [rmemA k, stagedActionKeys_cons_skip hc]
      · rw [stagedAccountKeys_cons_skip hc]; exact rnd2
      · rw [stagedAccountKeys_cons_skip hc]; exact rdisj2
      · intro k
        rw [rmemAA k, stagedAccountKeys_cons_skip hc]

/-- A successful task scan appends the task's trace id (when present)
and its seqno to the accumulators. -/
theorem scanTask_acc {db : Db} {itb : Bool} {acc acc' : TaskScan}
    {t : ClassifierTask} (h : scanTask db itb acc t = Except.ok acc') :
    acc'.traceIds = acc.traceIds ++
      (match t.traceId with | some s => [s] | none => [])
    ∧ acc'.mcSeqnos = acc.mcSeqnos ++ [t.mcSeqno] := by
  unfold scanTask at h
  obtain ⟨u, _, hrest⟩ := except_bind_ok h
  cases hrest
  exact ⟨rfl, rfl⟩

/-- The scan loop's accumulators are the batch's trace ids and seqnos
in task order. -/
theorem scanFold_acc {db : Db} {itb : Bool} :
    ∀ (tasks : List ClassifierTask) (acc scan : TaskScan),
      tasks.foldlM (scanTask db itb) acc = Except.ok scan →
      scan.traceIds = acc.traceIds ++ tasks.filterMap (·.traceId)
      ∧ scan.mcSeqnos = acc.mcSeqnos ++ tasks.map (·.mcSeqno) := by
  intro tasks
  induction tasks with
  | nil =>
    intro acc scan h
    simp only [List.foldlM_nil] at h
    cases h
    simp
  | cons t ts ih =>
    intro acc scan h
    rw [List.foldlM_cons] at h
    obtain ⟨acc1, h1, h2⟩ := except_bind_ok h
    obtain ⟨ht1, ht2⟩ := scanTask_acc h1
    obtain ⟨hi1, hi2⟩ := ih acc1 scan h2
    constructor
    · rw [hi1, ht1, List.filterMap_cons]
      cases t.traceId <;> simp
    · rw [hi2, ht2, List.map_cons, List.append_assoc]
      rfl

/-- The trace load only reads the `traces` table. -/
theorem loadTraces_traces {d1 d2 : Db} (h : d1.traces = d2.traces)
    (itb : Bool) (tis : List String) (ms : List (Option Int)) (th : Int) :
    loadTraces d1 itb tis ms th = loadTraces d2 itb tis ms th := by
  unfold loadTraces
  rw [h]

/-- The cleanup deletes never touch the `traces` table. -/
theorem cleanupDb_traces (db : Db) (cl : List String) :
    (cleanupDb db cl).traces = db.traces := by
  unfold cleanupDb
  split <;> rfl

/-- If the batch body commits, the staging loop ran successfully over
exactly the batch's per-trace results, starting from empty
inserted-key sets. -/
theorem batchBody_ok_staging {β : Type} {env : WorkerEnv β} {db : Db}
    {tasks : List ClassifierTask} {out : Db × (Bool × Nat × Nat × Nat)}
    (h : batchBody env db tasks = Except.ok out) :
    ∃ d0 st, (batchResults env db tasks).foldlM stageResult
        ⟨d0, [], [], [], [], []⟩ = Except.ok st := by
  unfold batchBody at h
  cases tasks with
  | nil => cases h
  | cons t0 rest =>
    simp only at h
    split at h
    · cases h
    · rename_i scan hscan
      split at h
      · cases h
      · split at h
        · cases h
        · rename_i st hst
          refine ⟨cleanupDb db scan.cleanup, st, ?_⟩
          obtain ⟨hids, hms⟩ := scanFold_acc (t0 :: rest) ⟨[], [], []⟩ scan hscan
          have htr : loadTraces (cleanupDb db scan.cleanup) t0.traceId.isSome
              scan.traceIds scan.mcSeqnos env.bigTracesThreshold
              = batchTraces env db (t0 :: rest) := by
            rw [loadTraces_traces (cleanupDb_traces db scan.cleanup)]
            unfold batchTraces batchIsTraceBatch
            rw [hids, hms]
            simp
          rw [htr] at hst
          exact hst

/-- Pointwise-equal functions give equal flat maps. -/
theorem flatMap_congr_mem {α β : Type} {l : List α} {f g : α → List β}
    (h : ∀ a ∈ l, f a = g a) : l.flatMap f = l.flatMap g := by
  induction l with
  | nil => rfl
  | cons a as ih =>
    rw [List.flatMap_cons, List.flatMap_cons, h a (List.mem_cons_self _ _),
      ih (fun a ha => h a (List.mem_cons_of_mem _ ha))]

/-- C2: duplicate-output fail-loud.  If two staged actions of one batch
share the same `(action_id, trace_id)` key, or two staged Action
Accounts share the same `(account, action_id, trace_id)` triple (the
accounts of an action carrying that action's trace id), the worker
raises before committing: the batch body ends in an exception, the
whole transaction is rolled back — nothing is silently deduplicated —
and `(False, 0, 0, 0)` is reported. -/
theorem duplicate_output_fail_loud {β : Type} (env : WorkerEnv β)
    (db : Db) (tasks : List ClassifierTask)
    (hwf : ∀ a ∈ stagedActionsOf (batchResults env db tasks),
      ∀ aa ∈ a.actionAccounts, aa.traceId = a.traceId)
    (hdup : ¬ (stagedActionPairs (batchResults env db tasks)).Nodup
      ∨ ¬ (stagedAccountTriples (batchResults env db tasks)).Nodup) :
    duplicateFailLoudProp env db tasks := by
  cases hb : batchBody env db tasks with
  | error e =>
    refine ⟨e, hb, ?_⟩
    unfold process_trace_batch_async
    rw [hb]
  | ok out =>
    exfalso
    obtain ⟨d0, st, hst⟩ := batchBody_ok_staging hb
    obtain ⟨⟨hndA, _⟩, _, ⟨hndAA, _⟩, _⟩ :=
      stageResults_ok (batchResults env db tasks) _ _ hst
    rcases hdup with hdup | hdup
    · apply hdup
      have hkeys : stagedActionKeys (batchResults env db tasks)
          = (stagedActionPairs (batchResults env db tasks)).map
              (fun p => p.1 ++ "_" ++ p.2) := by
        unfold stagedActionKeys stagedActionPairs
        rw [List.map_map]
        rfl
      rw [hkeys] at hndA
      exact hndA.of_map _
    · apply hdup
      have hkeys : stagedAccountKeys (batchResults env db tasks)
          = (stagedAccountTriples (batchResults env db tasks)).map
              (fun p => p.1 ++ "_" ++ p.2.1 ++ "_" ++ p.2.2) := by
        unfold stagedAccountKeys stagedAccountTriples
        rw [List.map_flatMap]
        apply flatMap_congr_mem
        intro a ha
        rw [List.map_map]
        apply List.map_congr_left
        intro aa haa
        have := hwf a ha aa haa
        unfold accountKey
        simp only [Function.comp]
        rw [this]
      rw [hkeys] at hndAA
      exact hndAA.of_map _

/-- Witness for C2: a worker whose rules emit the same action twice for
the one trace of the batch; the duplicate pair is detected and the
batch aborts with the store unchanged. -/
theorem duplicate_output_fail_loud_witness :
    (∀ a ∈ stagedActionsOf (batchResults wEnvDup wDb [wTask]),
      ∀ aa ∈ a.actionAccounts, aa.traceId = a.traceId)
    ∧ ¬ (stagedActionPairs (batchResults wEnvDup wDb [wTask])).Nodup
    ∧ duplicateFailLoudProp wEnvDup wDb [wTask] :=
  ⟨by decide, by decide,
   duplicate_output_fail_loud wEnvDup wDb [wTask] (by decide)
     (Or.inl (by decide))⟩

/-- The `WHERE` clause in propositional form. -/
theorem taskEligible_iff (now : Int) (r : TaskRow) :
    taskEligible now r = true ↔
      ((r.claimedAt = none ∨ ∃ t, r.claimedAt = some t ∧ t < now - 300)
        ∧ (r.startAfter = none ∨ ∃ t, r.startAfter = some t ∧ t ≤ now)) := by
  unfold taskEligible leaseFree startOk
  cases r.claimedAt <;> cases r.startAfter <;> simp

/-- The claim order is transitive. -/
theorem seqnoDescNullsFirst_trans (a b c : TaskRow)
    (h1 : seqnoDescNullsFirst a b) (h2 : seqnoDescNullsFirst b c) :
    seqnoDescNullsFirst a c = true := by
  cases ha : a.mcSeqno <;> cases hb : b.mcSeqno <;> cases hc : c.mcSeqno <;>
    (simp_all [seqnoDescNullsFirst]; try omega)

/-- The claim order is total. -/
theorem seqnoDescNullsFirst_total (a b : TaskRow) :
    (seqnoDescNullsFirst a b || seqnoDescNullsFirst b a) = true := by
  cases ha : a.mcSeqno <;> cases hb : b.mcSeqno <;>
    (simp_all [seqnoDescNullsFirst]; try omega)

/-- C4: claimer selection.  The selected rows are exactly the eligible
backlog rows up to `batch_size` many, in descending-seqno
nulls-first order; the same atomic statement stamps their lease with
`now` and leaves every other row untouched. -/
theorem claimer_selection (now : Int) (batchSize : Nat)
    (table : List TaskRow) : claimerSelectionProp now batchSize table := by
  have hsel : ∀ r ∈ selectedRows now batchSize table,
      r ∈ table.filter (taskEligible now) := by
    intro r hr
    have h1 := List.mem_of_mem_take hr
    exact ((List.mergeSort_perm _ _).mem_iff).mp h1
  refine ⟨?_, ?_, ?_, ?_, ?_, rfl, rfl, ?_⟩
  · unfold selectedRows
    rw [List.length_take]
    exact Nat.min_le_left _ _
  · intro r hr
    have h2 := List.mem_filter.mp (hsel r hr)
    exact (taskEligible_iff now r).mp h2.2
  · exact (List.sorted_mergeSort seqnoDescNullsFirst_trans
      seqnoDescNullsFirst_total
      (table.filter (taskEligible now))).sublist
        (List.take_sublist _ _)
  · intro r hr
    have h2 := List.mem_filter.mp (hsel r hr)
    exact ⟨h2.1, h2.2⟩
  · intro hlen
    unfold selectedRows
    rw [List.take_of_length_le (by rw [List.length_mergeSort]; exact hlen)]
    exact List.mergeSort_perm _ _
  · intro r hr hid
    exact List.mem_map.mpr ⟨r, hr, by rw [if_neg hid]⟩

/-- The split loop in closed form: singleton batches accumulate for
seqno tasks, the combined batch accumulates the trace tasks. -/
theorem splitStep_fold :
    ∀ (tasks : List ClassifierTask) (sb : List (List ClassifierTask))
      (tb : List ClassifierTask),
      tasks.foldl splitStep (sb, tb) =
        (sb ++ (tasks.filter (fun t => t.traceId.isNone)).map (fun t => [t]),
         tb ++ tasks.filter (fun t => t.traceId.isSome)) := by
  intro tasks
  induction tasks with
  | nil => intro sb tb; simp
  | cons t ts ih =>
    intro sb tb
    rw [List.foldl_cons]
    by_cases hs : t.traceId.isSome = true
    · have hn : t.traceId.isNone = false := by
        rcases hopt : t.traceId with _ | v
        · rw [hopt] at hs; simp at hs
        · simp
      rw [show splitStep (sb, tb) t = (sb, tb ++ [t]) from by
        simp [splitStep, hs]]
      rw [ih]
      simp [List.filter_cons, hs, hn]
    · have hs' : t.traceId.isSome = false := by simpa using hs
      have hn : t.traceId.isNone = true := by
        rcases hopt : t.traceId with _ | v
        · simp
        · rw [hopt] at hs'; simp at hs'
      rw [show splitStep (sb, tb) t = (sb ++ [[t]], tb) from by
        simp [splitStep, hs']]
      rw [ih]
      simp [List.filter_cons, hs', hn]

/-- Flattening singleton batches gives back the tasks. -/
theorem flatten_singletons (l : List ClassifierTask) :
    (l.map (fun t => [t])).flatten = l := by
  induction l <;> simp [*]

/-- A task's trace id is present exactly when it is not absent. -/
theorem isSome_eq_not_isNone (t : ClassifierTask) :
    t.traceId.isSome = !t.traceId.isNone := by
  cases t.traceId <;> rfl

/-- C8: batch partitioning.  The claimed tasks are split into one
singleton batch per seqno task plus (exactly when a trace task exists)
one combined batch of all trace tasks, and every claimed task appears
in exactly one pushed batch. -/
theorem split_batches (tasks : List ClassifierTask) :
    splitBatchesProp tasks := by
  have hcong : tasks.filter (fun x => !(x.traceId.isNone)) =
      tasks.filter (fun t => t.traceId.isSome) := by
    apply List.filter_congr
    intro a _
    rw [isSome_eq_not_isNone]
  have hshape : splitTasksIntoBatches tasks =
      (tasks.filter (fun t => t.traceId.isNone)).map (fun t => [t])
        ++ (if tasks.filter (fun t => t.traceId.isSome) = [] then []
            else [tasks.filter (fun t => t.traceId.isSome)]) := by
    unfold splitTasksIntoBatches
    rw [splitStep_fold tasks [] []]
    simp only [List.nil_append]
    by_cases h : tasks.filter (fun t => t.traceId.isSome) = []
    · simp [h]
    · have hlen : (tasks.filter (fun t => t.traceId.isSome)).length ≠ 0 := by
        simpa [List.length_eq_zero] using h
      simp [h, hlen]
  have hperm : (splitTasksIntoBatches tasks).flatten.Perm tasks := by
    rw [hshape]
    by_cases h : tasks.filter (fun t => t.traceId.isSome) = []
    · rw [if_pos h, List.append_nil, flatten_singletons]
      have hp := List.filter_append_perm (fun t => t.traceId.isNone) tasks
      rw [hcong, h, List.append_nil] at hp
      exact hp
    · rw [if_neg h, List.flatten_append, flatten_singletons]
      have hp := List.filter_append_perm (fun t => t.traceId.isNone) tasks
      rw [hcong] at hp
      simpa using hp
  refine ⟨hshape, hperm, ?_⟩
  intro t
  calc ((splitTasksIntoBatches tasks).map (fun b => b.count t)).sum
      = (splitTasksIntoBatches tasks).flatten.count t :=
        (List.count_flatten t _).symm
    _ = tasks.count t := hperm.count_eq t

/-- Witness for C10: an environment in which both classification and the
fallback synthesis raise still yields a `'failed'` result with an empty
action list. -/
theorem process_trace_total_interface_witness :
    ((processTrace wEnvFailBoth wTraceOrd).1.state = "ok"
      ∨ (processTrace wEnvFailBoth wTraceOrd).1.state = "broken"
      ∨ (processTrace wEnvFailBoth wTraceOrd).1.state = "failed")
    ∧ (processTrace wEnvFailBoth wTraceOrd).1 =
        ⟨wTraceOrd.traceId, "failed", [], some Err.externalError⟩ :=
  have h := process_trace_total_interface wEnvFailBoth wTraceOrd
    (fun b acts st hok => by cases hok; exact Or.inl rfl)
  ⟨h.1, h.2 Err.externalError Err.externalError rfl rfl rfl⟩

end Classifier

namespace Swaps

/-- C7: Ston.fi swap scenario.  For a matched set shaped
swap-call → payment-request → jetton-transfer anchored at the incoming
jetton transfer, the rule's build produces exactly one composite
`jetton_swap` block whose incoming amount is the swap call message's
amount and whose outgoing amount is the payment request's out amount;
the block is `failed` exactly when the payment request's exit code is
not the OK code — in particular `failed = false` for the OK code
`0xc64370e5` and `failed = true` for the no-liquidity code
`0x5ffe1295`. -/
theorem stonfi_swap_scenario (swapOp payOp : Int) (m : StonfiSwapMsg)
    (p : StonfiPayReq) (jtIn jtOut : JTData) (env : SwapEnv)
    (w : JettonWallet)
    (hops : swapOp ≠ payOp)
    (henv1 : env.swapMsgOpcode = swapOp)
    (henv2 : env.paymentRequestOpcode = payOp)
    (hamt : 0 < p.amount0Out)
    (hbody : jtIn.stonfiSwapBody = none)
    (hwallet : env.getJettonWallet m.tokenWallet.toUpper = some w)
    (hexit : p.exitCode = stonfi_swap_ok_exit_code
      ∨ p.exitCode = stonfi_swap_no_liq_exit_code) :
    stonfiScenarioProp swapOp payOp m p jtIn jtOut env := by
  have hmem : p.exitCode ∈ stonfi_sender_related_exit_codes := by
    rcases hexit with h | h <;> rw [h] <;> decide
  have hself : (swapOp == swapOp) = true := by simp
  have hne : (payOp == swapOp) = false := by
    exact beq_eq_false_iff_ne.mpr (Ne.symm hops)
  have hne2 : (swapOp == payOp) = false := by
    exact beq_eq_false_iff_ne.mpr hops
  refine ⟨rfl, ?_⟩
  simp only [stonfiScenario1, stonfiBuildBlock, get_block_data, henv1, henv2,
    List.find?, SBlock.isCallWithOp, hself, hne, hne2, expectSome,
    SBlock.getBody, parseSwapMsg, findCallContracts, List.filter,
    SBlock.isJettonTransfer, parsePRs, parsePayReq, SBlock.prev,
    prStep, nextJT, List.foldlM,
    SBlock.jtData, hbody, hwallet, hamt, hmem, beq_self_eq_true,
    Option.isNone, Option.map, bne, List.length_cons,
    Bind.bind, Except.bind, pure, Except.pure, if_true, if_false,
    Nat.zero_lt_succ, List.length_nil, gt_iff_lt, decide_True, ite_true]
  refine ⟨_, rfl, rfl, rfl, rfl, ?_, ?_⟩
  · cases (if jtOut.hasInternalTransfer = true then jtOut.receiverWallet
      else none) <;> rfl
  · rfl

/-- Witness for C7 at a concrete successful swap (opcodes 1/2, swap
amount 5, payout 100, OK exit code). -/
theorem stonfi_swap_scenario_witness :
    ((1 : Int) ≠ 2) ∧ 0 < wPayOk.amount0Out ∧ wJt.stonfiSwapBody = none
    ∧ wSwapEnv.getJettonWallet wMsg.tokenWallet.toUpper =
        some ⟨"J", "O"⟩
    ∧ (wPayOk.exitCode = stonfi_swap_ok_exit_code
        ∨ wPayOk.exitCode = stonfi_swap_no_liq_exit_code)
    ∧ stonfiScenarioProp 1 2 wMsg wPayOk wJt wJt wSwapEnv :=
  ⟨by decide, by decide, rfl, rfl, Or.inl rfl,
   stonfi_swap_scenario 1 2 wMsg wPayOk wJt wJt wSwapEnv ⟨"J", "O"⟩
     (by decide) rfl rfl (by decide) rfl rfl (Or.inl rfl)⟩

/-- C9 counterexample: two sender-related payment requests paying out
100 and then 50 (both with the OK exit code).  The build keeps 100 as
the outgoing amount but leaves `referral_amount` unset (`None`) — the
smaller of the two amounts does *not* become the referral amount, so
the claim as stated is false at this input. -/
theorem stonfi_referral_counterexample :
    ∃ b, stonfiBuildBlock wSwapEnv
        (stonfiScenario2 1 2 wMsg wPayOk wPaySmall wJt wJt wJt).1
        (stonfiScenario2 1 2 wMsg wPayOk wPaySmall wJt wJt wJt).2 =
          Except.ok [b]
      ∧ b.data.dexOutgoingTransfer.amount = Amount.mk (some 100)
      ∧ b.data.referralAmount = Amount.mk none
      ∧ b.data.referralAmount ≠ Amount.mk (some 50) :=
  ⟨_, rfl, rfl, rfl, by decide⟩

/-- C9 (amended): with two sender-related payment requests encountered
in the order `p1`, `p2`, the larger out amount always becomes the
outgoing transfer amount, but the smaller becomes the referral amount
(and its token the referral address) only when the larger was
encountered second; otherwise the referral fields remain unset.  The
selection happens inside the rule's build (`_get_block_data`), not in
the matching engine. -/
theorem stonfi_best_of_many (swapOp payOp : Int) (m : StonfiSwapMsg)
    (p1 p2 : StonfiPayReq) (jtIn jtOut1 jtOut2 : JTData) (env : SwapEnv)
    (w : JettonWallet)
    (hops : swapOp ≠ payOp)
    (henv1 : env.swapMsgOpcode = swapOp)
    (henv2 : env.paymentRequestOpcode = payOp)
    (hamt1 : 0 < p1.amount0Out)
    (hamt2 : 0 < p2.amount0Out)
    (hbody : jtIn.stonfiSwapBody = none)
    (hwallet : env.getJettonWallet m.tokenWallet.toUpper = some w)
    (hmem1 : p1.exitCode ∈ stonfi_sender_related_exit_codes)
    (hmem2 : p2.exitCode ∈ stonfi_sender_related_exit_codes) :
    stonfiBestOfManyProp swapOp payOp m p1 p2 jtIn jtOut1 jtOut2 env := by
  have hself : (swapOp == swapOp) = true := by simp
  have hne : (payOp == swapOp) = false := by
    exact beq_eq_false_iff_ne.mpr (Ne.symm hops)
  have hne2 : (swapOp == payOp) = false := by
    exact beq_eq_false_iff_ne.mpr hops
  by_cases hlt : p1.amount0Out < p2.amount0Out
  · simp only [stonfiScenario2, stonfiBuildBlock, get_block_data, henv1,
      henv2, List.find?, SBlock.isCallWithOp, hself, hne, hne2, expectSome,
      SBlock.getBody, parseSwapMsg, findCallContracts, List.filter,
      SBlock.isJettonTransfer, parsePRs, parsePayReq, SBlock.prev,
      prStep, nextJT, List.foldlM,
      SBlock.jtData, hbody, hwallet, hamt1, hamt2, hmem1, hmem2, hlt,
      beq_self_eq_true, Option.isNone, Option.map, bne, List.length_cons,
      Bind.bind, Except.bind, pure, Except.pure, if_true, if_false,
      Nat.zero_lt_succ, List.length_nil, gt_iff_lt, decide_True, ite_true,
      stonfiBestOfManyProp]
    refine ⟨_, rfl, ?_, ?_, ?_⟩
    · cases (if jtOut2.hasInternalTransfer = true then jtOut2.receiverWallet
        else none) <;> simp [Nat.max_def, max_eq_right (le_of_lt hlt)]
    · simp [hlt]
    · simp [hlt]
  · simp only [stonfiScenario2, stonfiBuildBlock, get_block_data, henv1,
      henv2, List.find?, SBlock.isCallWithOp, hself, hne, hne2, expectSome,
      SBlock.getBody, parseSwapMsg, findCallContracts, List.filter,
      SBlock.isJettonTransfer, parsePRs, parsePayReq, SBlock.prev,
      prStep, nextJT, List.foldlM,
      SBlock.jtData, hbody, hwallet, hamt1, hamt2, hmem1, hmem2, hlt,
      beq_self_eq_true, Option.isNone, Option.map, bne, List.length_cons,
      Bind.bind, Except.bind, pure, Except.pure, if_true, if_false,
      Nat.zero_lt_succ, List.length_nil, gt_iff_lt, decide_True, ite_true,
      stonfiBestOfManyProp]
    refine ⟨_, rfl, ?_, ?_, ?_⟩
    · cases (if jtOut1.hasInternalTransfer = true then jtOut1.receiverWallet
        else none) <;> simp [max_eq_left (not_lt.mp hlt)]
    · simp [hlt]
    · simp [hlt]

/-- Witness for C9 (amended) at payouts 100 then 200: the outgoing
amount is max(100, 200) = 200 and the referral amount is 100. -/
theorem stonfi_best_of_many_witness :
    ((1 : Int) ≠ 2) ∧ 0 < wPayOk.amount0Out ∧ 0 < wPayBig.amount0Out
    ∧ wJt.stonfiSwapBody = none
    ∧ wPayOk.exitCode ∈ stonfi_sender_related_exit_codes
    ∧ wPayBig.exitCode ∈ stonfi_sender_related_exit_codes
    ∧ stonfiBestOfManyProp 1 2 wMsg wPayOk wPayBig wJt wJt wJt wSwapEnv :=
  ⟨by decide, by decide, by decide, rfl, by decide, by decide,
   stonfi_best_of_many 1 2 wMsg wPayOk wPayBig wJt wJt wJt wSwapEnv
     ⟨"J", "O"⟩ (by decide) rfl rfl (by decide) (by decide) rfl rfl
     (by decide) (by decide)⟩

end Swaps